import Mathlib

/-!
Shallow embedding of the polymorphic event-record store of this repository:
the event-log writer (data/event-log-writer.js, given here as src/unnamed/part_000)
and the event-log service (src/services/event-log-service.js).

Modelling conventions:
* A spreadsheet is a list of rows (lists of string cells); row 1 is the header
  row and lives at list index 0.  `SheetsState` maps sheet names to their rows.
* JavaScript values that can reach the writer's `rowIndex` argument are modelled
  by `JsVal` (a number as a rational, a string, or `undefined`).  `parseInt`,
  `Number(...)` and the comparison `x <= 1` are modelled on the decimal forms
  that occur in this program (no hexadecimal or exponent notation).
* Asynchronous calls are sequential in the source (each is awaited), so every
  operation is a pure function from the incoming state to
  (result, new state, list of issued backend effects).
* The reader's cache-invalidation hook is external code; following the spec it
  is a named-key call that may fail, modelled by a boolean `invFail` telling
  whether the call throws.
-/

/-- JavaScript runtime values relevant to identifiers and row indexes:
a finite number (as a rational — every float used by this program is an exact
decimal), a string, or `undefined`. -/
inductive JsVal where
  | num (q : ℚ)
  | str (s : String)
  | undef
deriving DecidableEq, Repr

/-- Numeric value of a digit list, most significant first. -/
def digitsVal (cs : List Char) : Nat :=
  cs.foldl (fun a c => a * 10 + (c.toNat - 48)) 0

/-- JS `parseInt` on a character list: skip leading whitespace, optional sign,
longest decimal-digit prefix; `none` models `NaN`. -/
def jsParseIntCore (cs : List Char) : Option Int :=
  let cs := cs.dropWhile Char.isWhitespace
  match cs with
  | '-' :: rest =>
      let ds := rest.takeWhile Char.isDigit
      if ds.isEmpty then none else some (-(digitsVal ds : Int))
  | '+' :: rest =>
      let ds := rest.takeWhile Char.isDigit
      if ds.isEmpty then none else some ((digitsVal ds : Int))
  | _ =>
      let ds := cs.takeWhile Char.isDigit
      if ds.isEmpty then none else some ((digitsVal ds : Int))

/-- JS `parseInt` on a string. -/
def jsParseIntStr (s : String) : Option Int :=
  jsParseIntCore s.data

/-- Truncation toward zero of a rational, as JS `parseInt` acts on a plainly
rendered decimal number. -/
def ratTrunc (q : ℚ) : Int :=
  q.num.tdiv (q.den : Int)

/-- JS `parseInt(v)`: numbers are stringified then parsed (truncation toward
zero for plain decimals), strings parsed directly, `undefined` gives `NaN`. -/
def jsParseInt : JsVal → Option Int
  | .num q => some (ratTrunc q)
  | .str s => jsParseIntStr s
  | .undef => none

/-- JS `Number(s)` for a plain decimal string: trimmed empty string is `0`,
optional sign, `digits`, `digits.digits` or `.digits`; `none` models `NaN`. -/
def jsToNumberStr (s : String) : Option ℚ :=
  let cs := ((s.data.dropWhile Char.isWhitespace).reverse.dropWhile Char.isWhitespace).reverse
  if cs.isEmpty then some 0 else
  let sgn : ℚ := if cs.headD ' ' = '-' then -1 else 1
  let cs := if cs.headD ' ' = '-' ∨ cs.headD ' ' = '+' then cs.tail else cs
  let intPart := cs.takeWhile Char.isDigit
  let rest := cs.dropWhile Char.isDigit
  match rest with
  | [] => if intPart.isEmpty then none else some (sgn * (digitsVal intPart : ℚ))
  | '.' :: frac =>
      let fd := frac.takeWhile Char.isDigit
      if ¬ (frac.dropWhile Char.isDigit).isEmpty then none
      else if intPart.isEmpty ∧ fd.isEmpty then none
      else some (sgn * ((digitsVal intPart : ℚ) + (digitsVal fd : ℚ) / (10 ^ fd.length : ℚ)))
  | _ => none

/-- JS `Number(v)`; `none` models `NaN` (in particular for `undefined`). -/
def jsNumberOf : JsVal → Option ℚ
  | .num q => some q
  | .str s => jsToNumberStr s
  | .undef => none

/-- The JS comparison `v <= 1` (numeric coercion; `NaN` comparisons are false). -/
def jsLeOne : JsVal → Bool
  | .num q => decide (q ≤ 1)
  | .str s =>
      match jsToNumberStr s with
      | some q => decide (q ≤ 1)
      | none => false
  | .undef => false

/-- JS truthiness of a value (`0`, `""` and `undefined` are falsy). -/
def jsTruthy : JsVal → Bool
  | .num q => decide (q ≠ 0)
  | .str s => decide (s ≠ "")
  | .undef => false

/-- JS truthiness of a possibly-undefined string field. -/
def truthyStr : Option String → Bool
  | some s => decide (s ≠ "")
  | none => false

/-- JS `a || b` on possibly-undefined string values. -/
def truthyOr (a b : Option String) : Option String :=
  if truthyStr a then a else if truthyStr b then b else none

/-- Modelled from the spec: the sheet names held in the system configuration
(`config.SHEETS`, configuration module not part of the sources); one physically
distinct table per event type. -/
def EVENT_LOGS_GENERAL : String := "EventLogs_General"

/-- Modelled from the spec: backing table of the IOT event type. -/
def EVENT_LOGS_IOT : String := "EventLogs_IOT"

/-- Modelled from the spec: backing table of the DT event type. -/
def EVENT_LOGS_DT : String := "EventLogs_DT"

/-- Modelled from the spec: backing table of the DX event type. -/
def EVENT_LOGS_DX : String := "EventLogs_DX"

/-- Modelled from the spec: `config.EVENT_LOG_COMMON_FIELDS` (configuration
module not part of the sources): the ordered common column labels, identity
first, matching the common section of `HEADER_TO_KEY_MAP`. -/
def EVENT_LOG_COMMON_FIELDS : List String :=
  ["事件ID", "事件名稱", "關聯機會ID", "關聯公司ID", "建立者", "建立時間",
   "最後修改時間", "我方與會人員", "客戶與會人員", "會議地點", "會議內容",
   "客戶提問", "客戶情報", "備註", "修訂版次"]

/-- Modelled from the spec: `config.EVENT_LOG_IOT_FIELDS`: the IOT-specific
column labels, matching the IOT section of `HEADER_TO_KEY_MAP`. -/
def EVENT_LOG_IOT_FIELDS : List String :=
  ["設備規模", "生產線特徵", "生產現況", "IoT現況", "痛點分類",
   "客戶痛點說明", "痛點分析與對策", "系統架構"]

/-- Modelled from the spec: `config.EVENT_LOG_DT_FIELDS`: the DT-specific
column labels, matching the DT section of `HEADER_TO_KEY_MAP`. -/
def EVENT_LOG_DT_FIELDS : List String :=
  ["加工類型", "加工產業別"]

/-- `EventLogWriter.HEADER_TO_KEY_MAP`: header label to canonical field key. -/
def HEADER_TO_KEY_MAP : String → Option String
  | "事件ID" => some "eventId"
  | "事件名稱" => some "eventName"
  | "關聯機會ID" => some "opportunityId"
  | "關聯公司ID" => some "companyId"
  | "建立者" => some "creator"
  | "建立時間" => some "createdTime"
  | "最後修改時間" => some "lastModifiedTime"
  | "我方與會人員" => some "ourParticipants"
  | "客戶與會人員" => some "clientParticipants"
  | "會議地點" => some "visitPlace"
  | "會議內容" => some "eventContent"
  | "客戶提問" => some "clientQuestions"
  | "客戶情報" => some "clientIntelligence"
  | "備註" => some "eventNotes"
  | "修訂版次" => some "editCount"
  | "設備規模" => some "iot_deviceScale"
  | "生產線特徵" => some "iot_lineFeatures"
  | "生產現況" => some "iot_productionStatus"
  | "IoT現況" => some "iot_iotStatus"
  | "痛點分類" => some "iot_painPoints"
  | "客戶痛點說明" => some "iot_painPointDetails"
  | "痛點分析與對策" => some "iot_painPointAnalysis"
  | "系統架構" => some "iot_systemArchitecture"
  | "加工類型" => some "dt_processingType"
  | "加工產業別" => some "dt_industry"
  | _ => none

/-- `EventLogWriter._getSheetNameByType` (switch with `general` and default
both giving the general table; `undefined` falls to the default). -/
def getSheetNameByType : Option String → String
  | some "iot" => EVENT_LOGS_IOT
  | some "dt" => EVENT_LOGS_DT
  | some "dx" => EVENT_LOGS_DX
  | _ => EVENT_LOGS_GENERAL

/-- `EventLogWriter._getFieldsByType`: common labels plus the type-specific
extension. -/
def getFieldsByType : Option String → List String
  | some "iot" => EVENT_LOG_COMMON_FIELDS ++ EVENT_LOG_IOT_FIELDS
  | some "dt" => EVENT_LOG_COMMON_FIELDS ++ EVENT_LOG_DT_FIELDS
  | _ => EVENT_LOG_COMMON_FIELDS

/-- The label-to-key resolution block that appears verbatim in both
`createEventLog` and `updateEventLog`: the shared `設備規模` (device-scale)
label is disambiguated by the active event type before consulting the generic
`HEADER_TO_KEY_MAP`. -/
def resolveKey (eventType : Option String) (header : String) : Option String :=
  if header = "設備規模" then
    if eventType = some "iot" then some "iot_deviceScale"
    else if eventType = some "dt" then some "dt_deviceScale"
    else HEADER_TO_KEY_MAP header
  else HEADER_TO_KEY_MAP header

/-- A request payload: `data[key]`, with `none` for `undefined`. -/
abbrev Payload := String → Option String

/-- Error taxonomy of the modelled operations. -/
inductive Err where
  | invalidArgument
  | notFound
  | storeFailure
  | invalidateFailure
  | eventIdNotFound
  | invalidResolvedRowIndex
deriving DecidableEq, Repr

/-- Backend effects issued by the operations, in order. -/
inductive Eff where
  | get (sheet : String) (row : JsVal)
  | append (sheet : String) (row : List String)
  | update (sheet : String) (row : Nat) (vals : List String)
  | delRow (sheet : String) (row : Nat)
  | invalidate (key : String)
  | calendar
deriving DecidableEq, Repr

/-- The backing spreadsheet: sheet name to rows; row `r` (1-based) is at list
index `r - 1`, row 1 being the header row. -/
structure SheetsState where
  sheets : String → List (List String)

/-- Result shape of the mutating operations (`{success, id?, moved?}`). -/
structure OpResult where
  success : Bool
  id : Option String
  moved : Bool
deriving DecidableEq, Repr

/-- The row number a `rowIndex` value denotes inside an A1-notation range
(`sheet!A<r>:X<r>`): only a positive integer (or its plain digit string)
forms a valid range. -/
def rangeRowOf : JsVal → Option Nat
  | .num q => if q.den = 1 ∧ 1 ≤ q.num then some q.num.toNat else none
  | .str s =>
      if s.data ≠ [] ∧ s.data.all Char.isDigit ∧ 1 ≤ digitsVal s.data
      then some (digitsVal s.data) else none
  | .undef => none

/-- Drop trailing empty cells, as the backend omits them from a read. -/
def trimTrailingEmptyCells (l : List String) : List String :=
  (l.reverse.dropWhile (fun s => s = "")).reverse

/-- A `values.get` on range `A<r>:<lastColumn><r>`: the first `width` cells of
row `r` with trailing empty cells omitted; `[]` models an absent/empty reply
(`response.data.values` undefined). -/
def sheetsGetRow (st : SheetsState) (sheet : String) (r : Nat) (width : Nat) : List String :=
  trimTrailingEmptyCells (((st.sheets sheet).getD (r - 1) []).take width)

/-- Append a row at the first free position of a sheet. -/
def appendRow (st : SheetsState) (sheet : String) (row : List String) : SheetsState :=
  ⟨fun s => if s = sheet then st.sheets s ++ [row] else st.sheets s⟩

/-- A `values.update` on range `A<r>:<lastColumn><r>`: overwrite the first
`vals.length` cells of row `r` in place, keeping any cells beyond the range. -/
def writeRowAt (st : SheetsState) (sheet : String) (r : Nat) (vals : List String) : SheetsState :=
  ⟨fun s =>
    if s = sheet then
      (st.sheets s).set (r - 1) (vals ++ ((st.sheets s).getD (r - 1) []).drop vals.length)
    else st.sheets s⟩

/-- Modelled from the spec: the reader's named-key cache-invalidation hook
(`eventLogReader.invalidateCache`, reader module not part of the sources); a
best-effort external call that may fail, with `invFail` telling whether this
call throws. -/
def readerInvalidate (invFail : Bool) : Except Err Unit :=
  if invFail then .error .invalidateFailure else .ok ()

/-- One cell of the row built by `createEventLog`, walking the schema: key is
resolved first (device-scale disambiguation), then the special columns are
overridden, all else takes `data[key]` or the empty string. -/
def buildCreateCell (data : Payload) (etype : Option String)
    (eventId creator now : String) (header : String) : String :=
  let key := resolveKey etype header
  if header = "事件ID" then eventId
  else if header = "建立者" then creator
  else if header = "建立時間" then now
  else if header = "最後修改時間" then now
  else if header = "修訂版次" then "1"
  else
    match key with
    | some k => match data k with | some v => v | none => ""
    | none => ""

/-- `EventLogWriter.createEventLog(data, creator)`: generates `EVT<Date.now()>`,
builds the row over the type's schema and appends it, then invalidates the
reader cache (unguarded) and returns `{success, id}`.  `now` is the ISO
timestamp and `nowMs` the value of `Date.now()`. -/
def createEventLog (st : SheetsState) (data : Payload) (creator : String)
    (now : String) (nowMs : Nat) (invFail : Bool) :
    Except Err OpResult × SheetsState × List Eff :=
  let eventId := "EVT" ++ toString nowMs
  let etype := data "eventType"
  let sheetName := getSheetNameByType etype
  let headers := getFieldsByType etype
  let rowData := headers.map (buildCreateCell data etype eventId creator now)
  let st' := appendRow st sheetName rowData
  match readerInvalidate invFail with
  | .error e => (.error e, st', [.append sheetName rowData])
  | .ok _ =>
      (.ok ⟨true, some eventId, false⟩, st',
       [.append sheetName rowData, .invalidate "eventLogs"])

/-- One cell of the row rebuilt by `updateEventLog`: modified-time and revision
are special-cased (`parseInt(current) || 1` then `+ 1`), any other column is
overwritten only when `data` supplies a non-undefined value at the resolved
key. -/
def updateCell (data : Payload) (etype : Option String) (now : String)
    (header : String) (cur : String) : String :=
  let key := resolveKey etype header
  if header = "最後修改時間" then now
  else if header = "修訂版次" then
    let currentVer : Int :=
      match jsParseIntStr cur with
      | some k => if k = 0 then 1 else k
      | none => 1
    toString (currentVer + 1)
  else
    match key with
    | some k => match data k with | some v => v | none => cur
    | none => cur

/-- `EventLogWriter.updateEventLog(rowIndex, data, modifier)`: guard
`isNaN(parseInt(rowIndex)) || rowIndex <= 1`, read the current row at schema
width, reject an empty reply, pad to schema width, rebuild each cell with
`updateCell` and write the row back, then invalidate the reader cache
(unguarded). -/
def updateEventLogW (st : SheetsState) (rowIndex : JsVal) (data : Payload)
    (_modifier : String) (now : String) (invFail : Bool) :
    Except Err OpResult × SheetsState × List Eff :=
  if (jsParseInt rowIndex).isNone || jsLeOne rowIndex then
    (.error .invalidArgument, st, [])
  else
    let etype := data "eventType"
    let sheetName := getSheetNameByType etype
    let headers := getFieldsByType etype
    match rangeRowOf rowIndex with
    | none => (.error .storeFailure, st, [.get sheetName rowIndex])
    | some r =>
        let currentRow := sheetsGetRow st sheetName r headers.length
        if currentRow.length = 0 then
          (.error .notFound, st, [.get sheetName rowIndex])
        else
          let padded := currentRow ++ List.replicate (headers.length - currentRow.length) ""
          let newRow := (headers.zip padded).map (fun p => updateCell data etype now p.1 p.2)
          let st' := writeRowAt st sheetName r newRow
          match readerInvalidate invFail with
          | .error e => (.error e, st', [.get sheetName rowIndex, .update sheetName r newRow])
          | .ok _ =>
              (.ok ⟨true, none, false⟩, st',
               [.get sheetName rowIndex, .update sheetName r newRow, .invalidate "eventLogs"])

/-- `EventLogWriter.deleteEventLog(rowIndex, eventType)`.  Modelled from the
spec for the missing `BaseWriter._deleteRow`: resolve the table from the type,
eliminate the physical row (no existence check — removing an absent row is a
no-op), invalidate the reader cache, return `{success}`. -/
def deleteEventLogW (st : SheetsState) (rowIndex : JsVal) (etype : Option String)
    (invFail : Bool) : Except Err OpResult × SheetsState × List Eff :=
  let sheetName := getSheetNameByType etype
  match rangeRowOf rowIndex with
  | none => (.error .storeFailure, st, [])
  | some r =>
      let st' : SheetsState :=
        ⟨fun s => if s = sheetName then (st.sheets s).eraseIdx (r - 1) else st.sheets s⟩
      match readerInvalidate invFail with
      | .error e => (.error e, st', [.delRow sheetName r])
      | .ok _ => (.ok ⟨true, none, false⟩, st', [.delRow sheetName r, .invalidate "eventLogs"])

/-- A cached event record as returned by the event-log reader (reader module
not part of the sources; its record shape is taken from the fields the service
reads: identity, physical position, discriminant, timestamps and the join
keys/display fields used by enrichment). -/
structure EventRecord where
  id : Option String := none
  eventId : Option String := none
  rowIndex : JsVal := .undef
  eventType : Option String := none
  createdTime : Option String := none
  lastModifiedTime : Option String := none
  eventName : Option String := none
  opportunityId : Option String := none
  companyId : Option String := none
  opportunityName : Option String := none
  companyName : Option String := none
deriving DecidableEq, Repr

instance : Inhabited EventRecord := ⟨{}⟩

/-- `EventLogService._invalidateEventCacheSafe`: the reader invalidation call
wrapped in try/catch — any failure is absorbed. -/
def invalidateEventCacheSafe (invFail : Bool) : Except Err Unit :=
  match readerInvalidate invFail with
  | .ok _ => .ok ()
  | .error _ => .ok ()

/-- `EventLogService.createEvent` (with the modifier already resolved from the
user): call the writer, rethrow its failures, then the safe cache invalidation
and the optional calendar side effect (whose failures are swallowed). -/
def svcCreateEvent (st : SheetsState) (data : Payload) (modifier : String)
    (now : String) (nowMs : Nat) (invFail : Bool) :
    Except Err OpResult × SheetsState × List Eff :=
  match createEventLog st data modifier now nowMs invFail with
  | (.error e, st', effs) => (.error e, st', effs)
  | (.ok r, st', effs) =>
      if r.success ∧ data "syncToCalendar" = some "true" then
        (.ok r, st', effs ++ [.calendar])
      else (.ok r, st', effs)

/-- `EventLogService.updateEvent`: call the writer, rethrow failures, then the
safe cache invalidation. -/
def svcUpdateEvent (st : SheetsState) (rowIndex : JsVal) (data : Payload)
    (modifier : String) (now : String) (invFail : Bool) :
    Except Err OpResult × SheetsState × List Eff :=
  match updateEventLogW st rowIndex data modifier now invFail with
  | (.error e, st', effs) => (.error e, st', effs)
  | (.ok r, st', effs) => (.ok r, st', effs)

/-- The rowIndex-guess fallback of `EventLogService.updateEventLog` (step 2b):
`Number(idOrRowIndex)`, and when that is an integer, the first log whose
`Number(l.rowIndex)` strictly equals it. -/
def resolveByRow (logs : List EventRecord) (idOrRowIndex : JsVal) : Option EventRecord :=
  match jsNumberOf idOrRowIndex with
  | some q =>
      if q.den = 1 then logs.find? (fun l => jsNumberOf l.rowIndex == some q) else none
  | none => none

/-- Steps 2a/2b of `EventLogService.updateEventLog`: resolve the original
record by exact `eventId` match first, falling back to the rowIndex guess only
when that finds nothing. -/
def resolveOriginal (logs : List EventRecord) (inputEventId : Option String)
    (idOrRowIndex : JsVal) : Option EventRecord :=
  let byId :=
    match inputEventId with
    | some eid => logs.find? (fun l => l.eventId == some eid)
    | none => none
  match byId with
  | some r => some r
  | none => resolveByRow logs idOrRowIndex

/-- Step 3 of `EventLogService.updateEventLog`: a string argument that is not
numeric is treated as an eventId and looked up in the logs (throwing when absent
or without a usable rowIndex); everything else passes through. -/
def resolveRowIndexVal (logs : List EventRecord) (idOrRowIndex : JsVal) :
    Except Err JsVal :=
  match idOrRowIndex with
  | .str s =>
      if (jsToNumberStr s).isNone then
        match logs.find? (fun l => l.eventId == some s) with
        | some t => if jsTruthy t.rowIndex then .ok t.rowIndex else .error .eventIdNotFound
        | none => .error .eventIdNotFound
      else .ok idOrRowIndex
  | v => .ok v

/-- End of step 3: `rowIndex = Number(rowIndex)` and the `Number.isInteger`
check. -/
def toIntegerNum (v : JsVal) : Except Err Int :=
  match jsNumberOf v with
  | some q => if q.den = 1 then .ok q.num else .error .invalidResolvedRowIndex
  | none => .error .invalidResolvedRowIndex

/-- The payload pinned by the move branch: `eventId`/`id` forced to the
original identity, and `createdTime` kept from the original when the caller
did not supply one. -/
def pinMovePayload (data : Payload) (orig : EventRecord) : Payload :=
  fun k =>
    if k = "eventId" then orig.eventId
    else if k = "id" then orig.eventId
    else if k = "createdTime" then
      if ¬ truthyStr (data "createdTime") ∧ truthyStr orig.createdTime
      then orig.createdTime else data "createdTime"
    else data k

/-- `EventLogService.updateEventLog(idOrRowIndex, data, modifier)`: resolve the
original record (eventId first, rowIndex fallback), resolve the numeric
rowIndex, then either the type-change move (delete from the original table,
recreate in the new one with the pinned payload) or a plain update. -/
def svcUpdateEventLog (logs : List EventRecord) (st : SheetsState)
    (idOrRowIndex : JsVal) (data : Payload) (modifier : String)
    (now : String) (nowMs : Nat) (invFail : Bool) :
    Except Err OpResult × SheetsState × List Eff :=
  let inputEventId := truthyOr (data "eventId") (data "id")
  let original := resolveOriginal logs inputEventId idOrRowIndex
  match resolveRowIndexVal logs idOrRowIndex with
  | .error e => (.error e, st, [])
  | .ok rv =>
      match toIntegerNum rv with
      | .error e => (.error e, st, [])
      | .ok n =>
          match original with
          | some orig =>
              if truthyStr (data "eventType") ∧ truthyStr orig.eventType ∧
                  data "eventType" ≠ orig.eventType then
                match deleteEventLogW st orig.rowIndex orig.eventType invFail with
                | (.error e, st', effs) => (.error e, st', effs)
                | (.ok _, st', effs) =>
                    match createEventLog st' (pinMovePayload data orig) modifier now nowMs invFail with
                    | (.error e, st'', effs') => (.error e, st'', effs ++ effs')
                    | (.ok r, st'', effs') =>
                        (.ok { r with moved := true }, st'', effs ++ effs')
              else svcUpdateEvent st (.num (n : ℚ)) data modifier now invFail
          | none => svcUpdateEvent st (.num (n : ℚ)) data modifier now invFail

/-- The id-alias step of the service reads: `if (!e.id && e.eventId) e.id =
e.eventId`. -/
def aliasId (e : EventRecord) : EventRecord :=
  if ¬ truthyStr e.id ∧ truthyStr e.eventId then { e with id := e.eventId } else e

/-- JS `Map` built from key/value pairs: lookup returning the value of the last
pair inserted for the key. -/
def mapGet (pairs : List (String × String)) (k : String) : Option String :=
  (pairs.reverse.find? (fun p => p.1 == k)).map (fun p => p.2)

/-- `map.get(k) || k`: the stored display name unless the lookup misses or the
stored name is empty, in which case the raw id is echoed. -/
def getOrEcho (pairs : List (String × String)) (k : String) : String :=
  match mapGet pairs k with
  | some v => if v = "" then k else v
  | none => k

/-- `if (e.opportunityId) e.opportunityName = oppMap.get(e.opportunityId) ||
e.opportunityId`. -/
def attachOppName (op : List (String × String)) (e : EventRecord) : EventRecord :=
  match e.opportunityId with
  | some oid => if oid ≠ "" then { e with opportunityName := some (getOrEcho op oid) } else e
  | none => e

/-- `if (e.companyId) e.companyName = compMap.get(e.companyId) ||
e.companyId`. -/
def attachCompName (cp : List (String × String)) (e : EventRecord) : EventRecord :=
  match e.companyId with
  | some cid => if cid ≠ "" then { e with companyName := some (getOrEcho cp cid) } else e
  | none => e

/-- The per-record body of `getAllEvents`: clone the raw record, set the id
alias and attach both display names. -/
def enrichOne (op cp : List (String × String)) (raw : EventRecord) : EventRecord :=
  attachCompName cp (attachOppName op (aliasId raw))

/-- An opportunity record from the join source (id and display name). -/
structure Opportunity where
  opportunityId : String
  opportunityName : String
deriving DecidableEq, Repr

/-- A company record from the join source (id and display name). -/
structure Company where
  companyId : String
  companyName : String
deriving DecidableEq, Repr

/-- The object heap for the read-side model: JS objects are addresses into the
heap, cloning allocates a fresh address, so reference identity is observable. -/
abbrev Heap := List EventRecord

/-- The `events.map(raw => ...)` loop of `getAllEvents` over the heap: each raw
record is read at its address and its enriched clone is allocated fresh; the
list of fresh addresses is returned. -/
def mapEnrich (op cp : List (String × String)) : Heap → List Nat → Heap × List Nat
  | h, [] => (h, [])
  | h, a :: as =>
      let e := enrichOne op cp (h.getD a {})
      let r := mapEnrich op cp (h ++ [e]) as
      (r.1, h.length :: r.2)

/-- `EventLogService.getAllEvents`: the three collaborator fetches run under
one try/catch — if any fails the call degrades to an empty set; otherwise the
one-shot id-to-name maps are built and every cached record is cloned and
enriched. -/
def svcGetAllEvents (h : Heap) (eventsRes : Except Unit (List Nat))
    (oppsRes : Except Unit (List Opportunity)) (compsRes : Except Unit (List Company)) :
    Heap × List Nat :=
  match eventsRes, oppsRes, compsRes with
  | .ok evts, .ok opps, .ok comps =>
      mapEnrich (opps.map fun o => (o.opportunityId, o.opportunityName))
        (comps.map fun c => (c.companyId, c.companyName)) h evts
  | _, _, _ => (h, [])

/-- `EventLogService.getEventById`: a reader failure or a missing record gives
`null`; otherwise the raw record is cloned (fresh address) and aliased, and the
join enrichment is applied on the clone only when both join fetches succeed. -/
def svcGetEventById (h : Heap) (rawRes : Except Unit (Option Nat))
    (oppsRes : Except Unit (List Opportunity)) (compsRes : Except Unit (List Company)) :
    Heap × Option Nat :=
  match rawRes with
  | .error _ => (h, none)
  | .ok none => (h, none)
  | .ok (some a) =>
      let e0 := aliasId (h.getD a {})
      match oppsRes, compsRes with
      | .ok opps, .ok comps =>
          let op := opps.map fun o => (o.opportunityId, o.opportunityName)
          let cp := comps.map fun c => (c.companyId, c.companyName)
          (h ++ [attachCompName cp (attachOppName op e0)], some h.length)
      | _, _ => (h ++ [e0], some h.length)

/-- The row cell contract of the create claim, written from the spec's words:
identity column takes the generated id, creator column the given creator, both
timestamp columns the current time, the revision column the string "1", and
every other column the payload value at the resolved key or the empty string
when absent. -/
def specCell (data : Payload) (etype : Option String)
    (eventId creator now : String) (header : String) : String :=
  if header = "事件ID" then eventId
  else if header = "建立者" then creator
  else if header = "建立時間" then now
  else if header = "最後修改時間" then now
  else if header = "修訂版次" then "1"
  else
    match resolveKey etype header with
    | some k => match data k with | some v => v | none => ""
    | none => ""

/-- Header row of the general table (the schema labels). -/
def genHeader : List String := EVENT_LOG_COMMON_FIELDS

/-- A stored general-type row: id `EVT100`, created at `T0`, revision 1. -/
def genRow : List String :=
  ["EVT100", "N", "", "", "creator", "T0", "T0", "", "", "", "", "", "", "", "1"]

/-- A backing spreadsheet holding one general record at row 2, an IOT table
with only its header, and empty other sheets. -/
def stC1 : SheetsState :=
  ⟨fun s =>
    if s = EVENT_LOGS_GENERAL then [genHeader, genRow]
    else if s = EVENT_LOGS_IOT then [getFieldsByType (some "iot")]
    else []⟩

/-- The reader's cached view of `stC1`: one general record at row 2. -/
def logsC1 : List EventRecord :=
  [{ eventId := some "EVT100", rowIndex := .num 2, eventType := some "general",
     createdTime := some "T0" }]

/-- A type-change update payload (general to iot), without id or timestamps. -/
def dataC1 : Payload :=
  fun k => if k = "eventType" then some "iot" else if k = "eventName" then some "E" else none

/-- A run of the service update on `stC1` that triggers the move, with
`Date.now() = 999` and current timestamp `NOW2`. -/
def c1run : Except Err OpResult × SheetsState × List Eff :=
  svcUpdateEventLog logsC1 stC1 (.num 2) dataC1 "mod" "NOW2" 999 false

/-- A type-change payload with no caller-supplied creation timestamp. -/
def dataC2 : Payload := fun k => if k = "eventType" then some "iot" else none

/-- The move run for `dataC2`. -/
def c2run : Except Err OpResult × SheetsState × List Eff :=
  svcUpdateEventLog logsC1 stC1 (.num 2) dataC2 "mod" "NOW2" 999 false

/-- A type-change payload explicitly supplying a creation timestamp `T9`. -/
def dataC2o : Payload :=
  fun k => if k = "eventType" then some "iot"
           else if k = "createdTime" then some "T9" else none

/-- The move run for `dataC2o`. -/
def c2runO : Except Err OpResult × SheetsState × List Eff :=
  svcUpdateEventLog logsC1 stC1 (.num 2) dataC2o "mod" "NOW2" 999 false

/-- A stored general row whose revision cell holds the parsable string "0". -/
def genRow0 : List String :=
  ["EVT1", "N", "", "", "c", "T0", "T0", "", "", "", "", "", "", "", "0"]

/-- A backing spreadsheet with the zero-revision row at general row 2. -/
def stC3 : SheetsState :=
  ⟨fun s => if s = EVENT_LOGS_GENERAL then [genHeader, genRow0] else []⟩

/-- An update payload carrying only the general event type. -/
def dataG : Payload := fun k => if k = "eventType" then some "general" else none

/-- A plain writer update of the zero-revision row. -/
def c3run : Except Err OpResult × SheetsState × List Eff :=
  updateEventLogW stC3 (.num 2) dataG "m" "NOW3" false

/-- The non-integer number 2.5 (as the exact rational 5/2). -/
def q25 : ℚ := mkRat 5 2

/-- A writer update called with the non-integer rowIndex 2.5. -/
def c4run : Except Err OpResult × SheetsState × List Eff :=
  updateEventLogW stC3 (.num q25) dataG "m" "N" false

/-- A service create running against a reader whose invalidation call throws. -/
def c9run : Except Err OpResult × SheetsState × List Eff :=
  svcCreateEvent stC3 dataG "u" "N9" 5 true

/-- A one-record heap whose cached record has an eventId and an opportunity
reference but no id alias and no display fields. -/
def h10 : Heap := [{ eventId := some "E1", opportunityId := some "O1" }]

/-- A fetch-by-id of that record in which both join-source fetches fail. -/
def c10run : Heap × Option Nat :=
  svcGetEventById h10 (.ok (some 0)) (.error ()) (.ok [])

/-- A one-record heap whose cached record references opportunity `O1`. -/
def h8 : Heap := [{ eventId := some "E1", opportunityId := some "O1" }]

/-- A bulk read joining against a collaborator list in which `O1` is present
but its display name is the empty string. -/
def c8run : Heap × List Nat :=
  svcGetAllEvents h8 (.ok [0]) (.ok [⟨"O1", ""⟩]) (.ok [])

/-- Two cached records: one matching rowIndex 3, the other matching eventId
`E1` at rowIndex 2. -/
def logsC6 : List EventRecord :=
  [{ eventId := some "E9", rowIndex := .num 3 },
   { eventId := some "E1", rowIndex := .num 2 }]

/-- The revision base of the update: the parsed current value, defaulting to 1
when unparsable or when it parses to 0 (the code's `parseInt(current) || 1`,
where a parsed 0 is falsy). -/
def revisionBase (s : String) : Int :=
  match jsParseIntStr s with
  | some k => if k = 0 then 1 else k
  | none => 1

/-- The opportunity join source used by the C8 witness. -/
def oppsW : List Opportunity := [⟨"O1", "OppOne"⟩]

/-- The company join source used by the C8 witness. -/
def compsW : List Company := []

/-- C1: the claim says a type-change update deletes the original row, creates a
row in the new type's table, and stores/returns the original eventId.  The
first two parts hold on this run, but the id part fails in the code: although
the service pins `payload.eventId` to the original id, the writer's
`createEventLog` unconditionally writes and returns a freshly generated
`EVT<Date.now()>`, so the new row holds `EVT999` and not the original
`EVT100`. -/
theorem c1_move_does_not_preserve_event_id :
    c1run.1 = .ok ⟨true, some "EVT999", true⟩ ∧
    c1run.2.1.sheets EVENT_LOGS_GENERAL = [genHeader] ∧
    (c1run.2.1.sheets EVENT_LOGS_IOT).length = 2 ∧
    ((c1run.2.1.sheets EVENT_LOGS_IOT).getD 1 []).getD 0 "" = "EVT999" ∧
    (logsC1.getD 0 {}).eventId = some "EVT100" ∧
    "EVT999" ≠ "EVT100" := by
  refine ⟨rfl, rfl, rfl, rfl, rfl, by decide⟩

/-- C2: the claim says a type-change move carries the original creation
timestamp into the new row (unless the caller overrides it).  It fails in the
code: although the service pins `payload.createdTime` to the original `T0`,
the writer's `createEventLog` unconditionally writes the current time into the
created-time column, so the new row's created cell is `NOW2`, not `T0` — and
an explicit caller override `T9` is ignored the same way. -/
theorem c2_move_does_not_preserve_created_time :
    c2run.1 = .ok ⟨true, some "EVT999", true⟩ ∧
    (logsC1.getD 0 {}).createdTime = some "T0" ∧
    (getFieldsByType (some "iot")).getD 5 "" = "建立時間" ∧
    ((c2run.2.1.sheets EVENT_LOGS_IOT).getD 1 []).getD 5 "" = "NOW2" ∧
    "NOW2" ≠ "T0" ∧
    ((c2runO.2.1.sheets EVENT_LOGS_IOT).getD 1 []).getD 5 "" = "NOW2" ∧
    "NOW2" ≠ "T9" := by
  refine ⟨rfl, rfl, rfl, rfl, by decide, rfl, by decide⟩

/-- Counterexample to C3 as stated: the claim says the revision column becomes
the parsed current value (defaulting to 1 only if unparsable) plus 1.  The
stored revision "0" parses to 0, so the claim predicts "1"; but the code's
`parseInt(current) || 1` treats the parsed 0 as falsy and the cell becomes
"2". -/
theorem c3_zero_revision_counterexample :
    genRow0.getD 14 "" = "0" ∧
    genHeader.getD 14 "" = "修訂版次" ∧
    jsParseIntStr "0" = some 0 ∧
    c3run.1 = .ok ⟨true, none, false⟩ ∧
    ((c3run.2.1.sheets EVENT_LOGS_GENERAL).getD 1 []).getD 14 "" = "2" ∧
    ("2" : String) ≠ toString ((0 : Int) + 1) := by
  refine ⟨rfl, rfl, rfl, rfl, rfl, by decide⟩

/-- Counterexample to C4 as stated: the claim says a rowIndex that is not a
positive integer greater than 1 always fails with InvalidArgument before any
read.  The non-integer 2.5 (denominator 2) passes the guard
`isNaN(parseInt(rowIndex)) || rowIndex <= 1` (`parseInt` gives 2, and
`2.5 <= 1` is false), so the code issues a read and fails at the store with a
different error instead. -/
theorem c4_noninteger_row_index_counterexample :
    q25.den = 2 ∧
    jsParseInt (.num q25) = some 2 ∧
    jsLeOne (.num q25) = false ∧
    c4run.1 = .error .storeFailure ∧
    Err.storeFailure ≠ Err.invalidArgument ∧
    c4run.2.2 = [.get EVENT_LOGS_GENERAL (.num q25)] := by
  refine ⟨by decide, by decide, by decide, rfl, by decide, rfl⟩

/-- Counterexample to C9 as stated: the claim says that once the table write
has succeeded a mutation returns success regardless of whether cache
invalidation throws.  Here the append succeeded (the general table grew from 2
to 3 rows) yet the create fails, because the writer invokes the reader's
`invalidateCache` unguarded after the append and the service rethrows. -/
theorem c9_writer_invalidation_fails_mutation_counterexample :
    (stC3.sheets EVENT_LOGS_GENERAL).length = 2 ∧
    (c9run.2.1.sheets EVENT_LOGS_GENERAL).length = 3 ∧
    c9run.1 = .error .invalidateFailure := by
  refine ⟨rfl, rfl, rfl⟩

/-- Counterexample to C10 as stated: the claim says that when only the
join-source fetches fail, fetch-by-id returns the uncloned raw record.  In the
code the raw record is cloned (and id-aliased) before the join is attempted:
the returned object lives at the fresh address 1, not the cached address 0,
and its value differs from the cached record (the alias is set), while the
cached record itself is unchanged. -/
theorem c10_by_id_returns_clone_counterexample :
    c10run.2 = some 1 ∧
    (1 : Nat) ≠ 0 ∧
    c10run.1.getD 1 {} ≠ h10.getD 0 {} ∧
    c10run.1.getD 0 {} = h10.getD 0 {} ∧
    (c10run.1.getD 1 {}).id = some "E1" := by
  refine ⟨rfl, by decide, by decide, rfl, rfl⟩

/-- Counterexample to C8 as stated: the claim says the attached display name
equals the matching collaborator's name, or echoes the raw id only when no
match exists.  Here a match exists with the empty name, yet
`oppMap.get(id) || id` treats it as falsy and the display field echoes the raw
id `O1` instead of the matching name `""`. -/
theorem c8_empty_name_echo_counterexample :
    mapGet [("O1", "")] "O1" = some "" ∧
    c8run.2 = [1] ∧
    (c8run.1.getD 1 {}).opportunityName = some "O1" ∧
    some "O1" ≠ some ("" : String) := by
  refine ⟨rfl, rfl, rfl, by decide⟩

/-- C7: label-to-key resolution is a pure function of (type, label); the shared
device-scale label resolves to the IOT-specific key for type iot and the
DT-specific key for type dt, and every other case falls back to the generic
`HEADER_TO_KEY_MAP`. -/
theorem c7_resolve_key_disambiguation :
    resolveKey (some "iot") "設備規模" = some "iot_deviceScale" ∧
    resolveKey (some "dt") "設備規模" = some "dt_deviceScale" ∧
    (∀ t : Option String, t ≠ some "iot" → t ≠ some "dt" →
      resolveKey t "設備規模" = HEADER_TO_KEY_MAP "設備規模") ∧
    (∀ (t : Option String) (hd : String), hd ≠ "設備規模" →
      resolveKey t hd = HEADER_TO_KEY_MAP hd) := by
  refine ⟨rfl, rfl, ?_, ?_⟩
  · intro t h1 h2
    simp [resolveKey, h1, h2]
  · intro t hd hne
    simp [resolveKey, hne]

/-- Witness for C7 at concrete inputs: a type with no disambiguation falls back
to the generic map for the shared label, and any other label resolves
generically for every type. -/
theorem c7_resolve_key_disambiguation_witness :
    (some "dx" : Option String) ≠ some "iot" ∧
    (some "dx" : Option String) ≠ some "dt" ∧
    ("備註" : String) ≠ "設備規模" ∧
    resolveKey (some "dx") "設備規模" = HEADER_TO_KEY_MAP "設備規模" ∧
    resolveKey (some "dx") "備註" = HEADER_TO_KEY_MAP "備註" := by
  refine ⟨by decide, by decide, by decide, ?_, ?_⟩
  · exact c7_resolve_key_disambiguation.2.2.1 (some "dx") (by decide) (by decide)
  · exact c7_resolve_key_disambiguation.2.2.2 (some "dx") "備註" (by decide)

/-- C6: the service update resolves the original record by exact eventId match
first; whenever some cached record matches the supplied eventId the resolved
original carries that eventId, no matter what the rowIndex argument is, and
the rowIndex guess is used only when no eventId match exists (or no eventId was
supplied). -/
theorem c6_resolution_prefers_event_id :
    (∀ (logs : List EventRecord) (eid : String) (v : JsVal),
      (∃ l ∈ logs, l.eventId = some eid) →
      ∃ l', resolveOriginal logs (some eid) v = some l' ∧ l'.eventId = some eid) ∧
    (∀ (logs : List EventRecord) (eid : String) (v : JsVal),
      (∀ l ∈ logs, l.eventId ≠ some eid) →
      resolveOriginal logs (some eid) v = resolveByRow logs v) ∧
    (∀ (logs : List EventRecord) (v : JsVal),
      resolveOriginal logs none v = resolveByRow logs v) := by
  refine ⟨?_, ?_, ?_⟩
  · intro logs eid v h
    obtain ⟨l, hl, he⟩ := h
    have hs : (logs.find? (fun l => l.eventId == some eid)).isSome := by
      exact List.find?_isSome.mpr ⟨l, hl, by simp [he]⟩
    obtain ⟨l', hl'⟩ := Option.isSome_iff_exists.mp hs
    refine ⟨l', ?_, ?_⟩
    · simp [resolveOriginal, hl']
    · have := List.find?_some hl'
      simpa using this
  · intro logs eid v h
    have hn : logs.find? (fun l => l.eventId == some eid) = none := by
      exact List.find?_eq_none.mpr (fun x hx => by simpa using h x hx)
    simp [resolveOriginal, hn]
  · intro logs v
    rfl

/-- Witness for C6: with eventId `E1` supplied and a rowIndex argument 3 that
matches a different record, the resolution still returns the eventId match. -/
theorem c6_resolution_prefers_event_id_witness :
    (∃ l', resolveOriginal logsC6 (some "E1") (.num 3) = some l' ∧
      l'.eventId = some "E1") ∧
    jsNumberOf (logsC6.getD 0 {}).rowIndex = some 3 ∧
    (logsC6.getD 0 {}).eventId = some "E9" := by
  refine ⟨?_, rfl, rfl⟩
  exact c6_resolution_prefers_event_id.1 logsC6 "E1" (.num 3)
    ⟨logsC6.getD 1 {}, by decide, by decide⟩

/-- C9 amended: the service's own wrapper `_invalidateEventCacheSafe` absorbs
every invalidation failure, so its call never fails a mutation; but the writer
invokes the reader's `invalidateCache` unguarded after the table write, so when
that call throws, the writer's create — and with it the service create —
fails even though the row was appended. -/
theorem c9_invalidation_failure_handling :
    (∀ b : Bool, invalidateEventCacheSafe b = .ok ()) ∧
    (∀ (st : SheetsState) (data : Payload) (m now : String) (ms : Nat),
      (createEventLog st data m now ms true).1 = .error .invalidateFailure ∧
      (createEventLog st data m now ms true).2.1.sheets
          (getSheetNameByType (data "eventType")) =
        st.sheets (getSheetNameByType (data "eventType")) ++
          [(getFieldsByType (data "eventType")).map
            (buildCreateCell data (data "eventType") ("EVT" ++ toString ms) m now)] ∧
      (svcCreateEvent st data m now ms true).1 = .error .invalidateFailure) := by
  refine ⟨?_, ?_⟩
  · intro b
    cases b <;> rfl
  · intro st data m now ms
    refine ⟨rfl, ?_, rfl⟩
    simp [createEventLog, appendRow, readerInvalidate]

/-- C10 amended: read operations never propagate a failure: a failing fetch in
the bulk read yields the empty set; a reader failure in fetch-by-id yields
null; and a join-source failure in fetch-by-id yields a fresh id-aliased clone
of the raw record (allocated at a new heap address), not an error. -/
theorem c10_reads_degrade_gracefully :
    (∀ (h : Heap) (evR : Except Unit (List Nat))
        (opR : Except Unit (List Opportunity)) (cpR : Except Unit (List Company)),
      evR = .error () ∨ opR = .error () ∨ cpR = .error () →
      svcGetAllEvents h evR opR cpR = (h, [])) ∧
    (∀ (h : Heap) (a : Nat)
        (opR : Except Unit (List Opportunity)) (cpR : Except Unit (List Company)),
      opR = .error () ∨ cpR = .error () →
      svcGetEventById h (.ok (some a)) opR cpR =
        (h ++ [aliasId (h.getD a {})], some h.length)) ∧
    (∀ (h : Heap) (opR : Except Unit (List Opportunity))
        (cpR : Except Unit (List Company)),
      svcGetEventById h (.error ()) opR cpR = (h, none)) := by
  refine ⟨?_, ?_, ?_⟩
  · intro h evR opR cpR hd
    cases evR <;> cases opR <;> cases cpR <;> simp_all [svcGetAllEvents]
  · intro h a opR cpR hd
    cases opR <;> cases cpR <;> simp_all [svcGetEventById]
  · intro h opR cpR
    rfl

/-- Witness for C10 at concrete inputs: a failing event fetch empties the bulk
read, and a failing join fetch turns the fetch-by-id into a fresh aliased
clone. -/
theorem c10_reads_degrade_gracefully_witness :
    svcGetAllEvents h10 (.error ()) (.ok []) (.ok []) = (h10, []) ∧
    svcGetEventById h10 (.ok (some 0)) (.error ()) (.ok []) =
      (h10 ++ [aliasId (h10.getD 0 {})], some h10.length) := by
  refine ⟨?_, ?_⟩
  · exact c10_reads_degrade_gracefully.1 h10 (.error ()) (.ok []) (.ok []) (.inl rfl)
  · exact c10_reads_degrade_gracefully.2.1 h10 0 (.error ()) (.ok []) (.inl rfl)

/-- Case analysis of the writer update: it either rejects the rowIndex before
any effect, fails at the store on a malformed range, reports a missing row
after the read, fails on invalidation after the write, or succeeds. -/
theorem updateEventLogW_shape (st : SheetsState) (v : JsVal) (data : Payload)
    (m now : String) (b : Bool) :
    (updateEventLogW st v data m now b = (.error .invalidArgument, st, [])) ∨
    (updateEventLogW st v data m now b =
      (.error .storeFailure, st, [.get (getSheetNameByType (data "eventType")) v])) ∨
    (updateEventLogW st v data m now b =
      (.error .notFound, st, [.get (getSheetNameByType (data "eventType")) v])) ∨
    ((updateEventLogW st v data m now b).1 = .error .invalidateFailure) ∨
    ((updateEventLogW st v data m now b).1 = .ok ⟨true, none, false⟩) := by
  unfold updateEventLogW
  by_cases hc : ((jsParseInt v).isNone || jsLeOne v) = true
  · simp [hc]
  · simp only [hc, if_false, Bool.false_eq_true]
    rcases hr : rangeRowOf v with _ | r
    · simp [hr]
    · simp only [hr]
      by_cases hl : (sheetsGetRow st (getSheetNameByType (data "eventType")) r
          (getFieldsByType (data "eventType")).length).length = 0
      · simp [hl]
      · simp only [hl, if_false]
        cases b <;> simp [readerInvalidate]

/-- C4 amended: the writer update fails with InvalidArgument — before any read
or write, leaving the table unchanged — exactly when the guard
`isNaN(parseInt(rowIndex)) || rowIndex <= 1` fires; in particular every
integer rowIndex that is not greater than 1 fails this way.  When the guard
passes and the read returns an empty response the update fails with NotFound
after the single read and before any write, with the table unchanged.  (A
non-integer numeric rowIndex above 1, such as 2.5, passes the guard and
proceeds to the read.) -/
theorem c4_update_row_index_validation :
    (∀ (st : SheetsState) (v : JsVal) (data : Payload) (m now : String) (b : Bool),
      ((jsParseInt v).isNone || jsLeOne v) = true →
      updateEventLogW st v data m now b = (.error .invalidArgument, st, [])) ∧
    (∀ (st : SheetsState) (n : ℤ) (data : Payload) (m now : String) (b : Bool),
      n ≤ 1 →
      updateEventLogW st (.num (n : ℚ)) data m now b = (.error .invalidArgument, st, [])) ∧
    (∀ (st : SheetsState) (v : JsVal) (data : Payload) (m now : String) (b : Bool),
      (updateEventLogW st v data m now b).1 = .error .notFound →
      (updateEventLogW st v data m now b).2.1 = st ∧
      (updateEventLogW st v data m now b).2.2 =
        [.get (getSheetNameByType (data "eventType")) v]) ∧
    (∀ (st : SheetsState) (v : JsVal) (data : Payload) (m now : String) (b : Bool),
      (updateEventLogW st v data m now b).1 = .error .invalidArgument →
      (updateEventLogW st v data m now b).2.1 = st ∧
      (updateEventLogW st v data m now b).2.2 = []) := by
  refine ⟨?_, ?_, ?_, ?_⟩
  · intro st v data m now b h
    simp [updateEventLogW, h]
  · intro st n data m now b hn
    have hle : jsLeOne (.num (n : ℚ)) = true := by
      simp only [jsLeOne, decide_eq_true_eq]
      exact_mod_cast hn
    simp [updateEventLogW, hle]
  · intro st v data m now b h
    rcases updateEventLogW_shape st v data m now b with h1 | h1 | h1 | h1 | h1
    · rw [h1] at h; simp at h
    · rw [h1] at h; simp at h
    · rw [h1]; exact ⟨rfl, rfl⟩
    · rw [h1] at h; simp at h
    · rw [h1] at h; simp at h
  · intro st v data m now b h
    rcases updateEventLogW_shape st v data m now b with h1 | h1 | h1 | h1 | h1
    · rw [h1]; exact ⟨rfl, rfl⟩
    · rw [h1] at h; simp at h
    · rw [h1] at h; simp at h
    · rw [h1] at h; simp at h
    · rw [h1] at h; simp at h

/-- Witness for C4 at concrete inputs: the header rowIndex 0 and a non-numeric
string both fail with InvalidArgument, leaving the table unchanged with no
effect issued. -/
theorem c4_update_row_index_validation_witness :
    ((0 : ℤ) ≤ 1) ∧
    updateEventLogW stC3 (.num ((0 : ℤ) : ℚ)) dataG "m" "N" false =
      (.error .invalidArgument, stC3, []) ∧
    ((jsParseInt (.str "abc")).isNone || jsLeOne (.str "abc")) = true ∧
    updateEventLogW stC3 (.str "abc") dataG "m" "N" false =
      (.error .invalidArgument, stC3, []) := by
  refine ⟨by decide, ?_, by decide, ?_⟩
  · exact c4_update_row_index_validation.2.1 stC3 0 dataG "m" "N" false (by decide)
  · exact c4_update_row_index_validation.1 stC3 (.str "abc") dataG "m" "N" false (by decide)

/-- The source's cell construction and the claim-worded `specCell` agree. -/
theorem buildCreateCell_eq_specCell (data : Payload) (etype : Option String)
    (eventId creator now : String) (header : String) :
    buildCreateCell data etype eventId creator now header =
      specCell data etype eventId creator now header := rfl

/-- C5: every create returns success with the freshly generated id
`EVT<Date.now()>` (non-empty: a fixed literal prefix plus the numeric suffix),
and appends to the type's table exactly the row obtained by walking the schema
in order with identity, creator, both timestamps and revision specially
assigned and all other columns taken from the payload at the resolved key or
empty; no other table changes. -/
theorem c5_create_builds_row_per_schema :
    ∀ (st : SheetsState) (data : Payload) (creator now : String) (nowMs : Nat),
      (createEventLog st data creator now nowMs false).1 =
        .ok ⟨true, some ("EVT" ++ toString nowMs), false⟩ ∧
      (createEventLog st data creator now nowMs false).2.1.sheets
          (getSheetNameByType (data "eventType")) =
        st.sheets (getSheetNameByType (data "eventType")) ++
          [(getFieldsByType (data "eventType")).map
            (specCell data (data "eventType") ("EVT" ++ toString nowMs) creator now)] ∧
      (∀ s, s ≠ getSheetNameByType (data "eventType") →
        (createEventLog st data creator now nowMs false).2.1.sheets s = st.sheets s) ∧
      ("EVT" ++ toString nowMs) ≠ "" := by
  intro st data creator now nowMs
  refine ⟨rfl, ?_, ?_, ?_⟩
  · have hfun : buildCreateCell data (data "eventType") ("EVT" ++ toString nowMs) creator now =
        specCell data (data "eventType") ("EVT" ++ toString nowMs) creator now := by
      funext hd
      exact buildCreateCell_eq_specCell data (data "eventType") _ creator now hd
    simp [createEventLog, appendRow, readerInvalidate, hfun]
  · intro s hs
    simp [createEventLog, appendRow, readerInvalidate, hs]
  · intro hcontra
    have hlen := congrArg String.length hcontra
    rw [String.length_append] at hlen
    have h3 : ("EVT" : String).length = 3 := rfl
    have h0 : ("" : String).length = 0 := rfl
    omega

/-- Witness for C5 at concrete inputs: creating an IOT event against `stC1`. -/
theorem c5_create_builds_row_per_schema_witness :
    (createEventLog stC1 dataC1 "c" "N5" 7 false).1 =
      .ok ⟨true, some ("EVT" ++ toString 7), false⟩ ∧
    (createEventLog stC1 dataC1 "c" "N5" 7 false).2.1.sheets
        (getSheetNameByType (dataC1 "eventType")) =
      stC1.sheets (getSheetNameByType (dataC1 "eventType")) ++
        [(getFieldsByType (dataC1 "eventType")).map
          (specCell dataC1 (dataC1 "eventType") ("EVT" ++ toString 7) "c" "N5")] ∧
    (∀ s, s ≠ getSheetNameByType (dataC1 "eventType") →
      (createEventLog stC1 dataC1 "c" "N5" 7 false).2.1.sheets s = stC1.sheets s) ∧
    ("EVT" ++ toString 7) ≠ "" :=
  c5_create_builds_row_per_schema stC1 dataC1 "c" "N5" 7

/-- Indexing a zipped map: the cell at `i` is the function applied to the two
source cells at `i`. -/
theorem zipMap_getD {α β γ : Type} (f : α → β → γ) :
    ∀ (l1 : List α) (l2 : List β) (i : Nat) (d1 : α) (d2 : β) (dg : γ),
      i < l1.length → i < l2.length →
      ((l1.zip l2).map (fun p => f p.1 p.2)).getD i dg = f (l1.getD i d1) (l2.getD i d2) := by
  intro l1
  induction l1 with
  | nil => intro l2 i d1 d2 dg h1 h2; simp at h1
  | cons a l1 ih =>
    intro l2 i d1 d2 dg h1 h2
    cases l2 with
    | nil => simp at h2
    | cons b l2 =>
      cases i with
      | zero => rfl
      | succ i =>
        simp only [List.zip_cons_cons, List.map_cons, List.getD_cons_succ]
        exact ih l2 i d1 d2 dg (by simpa using h1) (by simpa using h2)

/-- A list position holding a non-default value is in bounds. -/
theorem getD_ne_default_lt {α : Type} (l : List α) (i : Nat) (d : α)
    (h : l.getD i d ≠ d) : i < l.length := by
  by_contra hc
  push_neg at hc
  exact h (List.getD_eq_default l d hc)

/-- Trimming trailing empty cells never lengthens a row. -/
theorem trimTrailingEmptyCells_length_le (l : List String) :
    (trimTrailingEmptyCells l).length ≤ l.length := by
  unfold trimTrailingEmptyCells
  calc ((l.reverse.dropWhile (fun s => s = "")).reverse).length
      = (l.reverse.dropWhile (fun s => s = "")).length := by
        exact List.length_reverse _
    _ ≤ l.reverse.length := (List.dropWhile_sublist _).length_le
    _ = l.length := List.length_reverse _

/-- A read at schema width returns at most schema-width cells. -/
theorem sheetsGetRow_length_le (st : SheetsState) (sheet : String) (r w : Nat) :
    (sheetsGetRow st sheet r w).length ≤ w := by
  unfold sheetsGetRow
  exact le_trans (trimTrailingEmptyCells_length_le _) (List.length_take_le _ _)

/-- Reading back the row just written by `writeRowAt`: the written cells
followed by whatever lay beyond the range. -/
theorem writeRowAt_sheets_getD (st : SheetsState) (sheet : String) (r : Nat)
    (vals : List String) (h : r - 1 < (st.sheets sheet).length) :
    ((writeRowAt st sheet r vals).sheets sheet).getD (r - 1) [] =
      vals ++ ((st.sheets sheet).getD (r - 1) []).drop vals.length := by
  simp only [writeRowAt, if_true]
  rw [List.getD_eq_getElem _ _ (by rw [List.length_set]; exact h)]
  rw [List.getElem_set_self]

/-- C3 amended: for every successful non-move update with a partial payload,
addressed by an integer rowIndex of at least 2 whose row read is non-empty:
the modified-timestamp column becomes the current time; the revision column
becomes the parsed current value — defaulting to 1 when unparsable or when it
parses to 0 — plus 1; and every other schema column whose resolved key is
absent (undefined) in the payload keeps a value byte-identical to its
pre-update value, short rows being padded with empty strings to schema width
first. -/
theorem c3_update_preserves_unsupplied_fields :
    ∀ (st : SheetsState) (data : Payload) (m now : String) (n : Nat)
      (headers cur padded newSheetRow : List String),
      2 ≤ n →
      headers = getFieldsByType (data "eventType") →
      cur = sheetsGetRow st (getSheetNameByType (data "eventType")) n headers.length →
      cur ≠ [] →
      padded = cur ++ List.replicate (headers.length - cur.length) "" →
      newSheetRow = ((updateEventLogW st (.num (n : ℚ)) data m now false).2.1.sheets
          (getSheetNameByType (data "eventType"))).getD (n - 1) [] →
      ((updateEventLogW st (.num (n : ℚ)) data m now false).1 = .ok ⟨true, none, false⟩ ∧
       ∀ i, i < headers.length →
         ((headers.getD i "" = "最後修改時間" → newSheetRow.getD i "" = now) ∧
          (headers.getD i "" = "修訂版次" →
            newSheetRow.getD i "" = toString (revisionBase (padded.getD i "") + 1)) ∧
          (headers.getD i "" ≠ "最後修改時間" → headers.getD i "" ≠ "修訂版次" →
            (resolveKey (data "eventType") (headers.getD i "")).bind data = none →
            newSheetRow.getD i "" = padded.getD i ""))) := by
  intro st data m now n headers cur padded newSheetRow hn hh hc hcne hp hrow
  have hguard : ¬(((jsParseInt (.num (n : ℚ))).isNone || jsLeOne (.num (n : ℚ))) = true) := by
    simp only [jsParseInt, Option.isNone_some, Bool.false_or, jsLeOne, decide_eq_true_eq]
    intro hle
    have : n ≤ 1 := by exact_mod_cast hle
    omega
  have hrange : rangeRowOf (.num (n : ℚ)) = some n := by
    have h1 : (1 : ℤ) ≤ ((n : ℚ)).num := by
      rw [Rat.num_natCast]
      exact_mod_cast (by omega : 1 ≤ n)
    simp only [rangeRowOf, Rat.den_natCast, Rat.num_natCast, h1, and_true, true_and,
      eq_self_iff_true, if_true, Int.toNat_natCast]
    simp [h1]
    omega
  have hlen0 : ¬((sheetsGetRow st (getSheetNameByType (data "eventType")) n
      (getFieldsByType (data "eventType")).length).length = 0) := by
    rw [List.length_eq_zero]
    rw [hc, hh] at hcne
    exact hcne
  have hred : updateEventLogW st (.num (n : ℚ)) data m now false =
      (.ok ⟨true, none, false⟩,
       writeRowAt st (getSheetNameByType (data "eventType")) n
         ((headers.zip padded).map (fun p => updateCell data (data "eventType") now p.1 p.2)),
       [.get (getSheetNameByType (data "eventType")) (.num (n : ℚ)),
        .update (getSheetNameByType (data "eventType")) n
          ((headers.zip padded).map (fun p => updateCell data (data "eventType") now p.1 p.2)),
        .invalidate "eventLogs"]) := by
    rw [hp, hc, hh]
    rw [updateEventLogW, if_neg hguard]
    simp only [hrange, hlen0, if_false, readerInvalidate, reduceIte]
    rfl
  have hcw : cur.length ≤ headers.length := by
    rw [hc]
    exact sheetsGetRow_length_le _ _ _ _
  have hplen : padded.length = headers.length := by
    rw [hp]
    simp only [List.length_append, List.length_replicate]
    omega
  constructor
  · rw [hred]
  · intro i hi
    have hrowex : (st.sheets (getSheetNameByType (data "eventType"))).getD (n - 1) [] ≠ [] := by
      intro hctr
      apply hcne
      rw [hc]
      unfold sheetsGetRow
      rw [hctr]
      simp [trimTrailingEmptyCells]
    have hilt : n - 1 < (st.sheets (getSheetNameByType (data "eventType"))).length :=
      getD_ne_default_lt _ _ _ hrowex
    have hnrlen : ((headers.zip padded).map
        (fun p => updateCell data (data "eventType") now p.1 p.2)).length = headers.length := by
      rw [List.length_map, List.length_zip, hplen, Nat.min_self]
    have hset : newSheetRow =
        ((headers.zip padded).map (fun p => updateCell data (data "eventType") now p.1 p.2)) ++
          ((st.sheets (getSheetNameByType (data "eventType"))).getD (n - 1) []).drop
            ((headers.zip padded).map
              (fun p => updateCell data (data "eventType") now p.1 p.2)).length := by
      rw [hrow, hred]
      exact writeRowAt_sheets_getD st _ n _ hilt
    have hcell : newSheetRow.getD i "" =
        updateCell data (data "eventType") now (headers.getD i "") (padded.getD i "") := by
      rw [hset]
      rw [List.getD_append _ _ _ _ (by rw [hnrlen]; exact hi)]
      exact zipMap_getD (fun a b => updateCell data (data "eventType") now a b)
        headers padded i "" "" "" hi (by rw [hplen]; exact hi)
    refine ⟨?_, ?_, ?_⟩
    · intro hhd
      rw [hcell, hhd]
      simp [updateCell]
    · intro hhd
      rw [hcell, hhd]
      simp [updateCell, revisionBase]
    · intro h1 h2 h3
      rw [hcell]
      simp only [updateCell]
      rw [if_neg h1, if_neg h2]
      rcases hk : resolveKey (data "eventType") (headers.getD i "") with _ | k
      · simp [hk]
      · have hdk : data k = none := by
          rw [hk] at h3
          simpa using h3
        simp [hk, hdk]

/-- Witness for C3 at concrete inputs: updating the general row 2 of `stC3`
with an empty partial payload succeeds and refreshes the modified-timestamp
column (index 6). -/
theorem c3_update_preserves_unsupplied_fields_witness :
    (updateEventLogW stC3 (.num ((2 : Nat) : ℚ)) dataG "m" "NOW3" false).1 =
      .ok ⟨true, none, false⟩ ∧
    (((updateEventLogW stC3 (.num ((2 : Nat) : ℚ)) dataG "m" "NOW3" false).2.1.sheets
        (getSheetNameByType (dataG "eventType"))).getD (2 - 1) []).getD 6 "" = "NOW3" := by
  have A := c3_update_preserves_unsupplied_fields stC3 dataG "m" "NOW3" 2
    (getFieldsByType (dataG "eventType"))
    (sheetsGetRow stC3 (getSheetNameByType (dataG "eventType")) 2
      (getFieldsByType (dataG "eventType")).length)
    (sheetsGetRow stC3 (getSheetNameByType (dataG "eventType")) 2
        (getFieldsByType (dataG "eventType")).length ++
      List.replicate ((getFieldsByType (dataG "eventType")).length -
        (sheetsGetRow stC3 (getSheetNameByType (dataG "eventType")) 2
          (getFieldsByType (dataG "eventType")).length).length) "")
    (((updateEventLogW stC3 (.num ((2 : Nat) : ℚ)) dataG "m" "NOW3" false).2.1.sheets
        (getSheetNameByType (dataG "eventType"))).getD (2 - 1) [])
    (by decide) rfl rfl (by decide) rfl rfl
  exact ⟨A.1, (A.2 6 (by decide)).1 (by decide)⟩

/-- The enrichment loop only appends to the heap, one clone per record. -/
theorem mapEnrich_fst_append (op cp : List (String × String)) :
    ∀ (as : List Nat) (h : Heap), ∃ ext : Heap,
      (mapEnrich op cp h as).1 = h ++ ext ∧ ext.length = as.length := by
  intro as
  induction as with
  | nil => intro h; exact ⟨[], by simp [mapEnrich], rfl⟩
  | cons a as ih =>
    intro h
    obtain ⟨ext, hx, hl⟩ := ih (h ++ [enrichOne op cp (h.getD a ({} : EventRecord))])
    refine ⟨enrichOne op cp (h.getD a ({} : EventRecord)) :: ext, ?_, by simp [hl]⟩
    show (mapEnrich op cp (h ++ [enrichOne op cp (h.getD a ({} : EventRecord))]) as).1 = _
    rw [hx, List.append_assoc]
    rfl

/-- Length of the heap after the enrichment loop. -/
theorem mapEnrich_length (op cp : List (String × String)) (as : List Nat) (h : Heap) :
    (mapEnrich op cp h as).1.length = h.length + as.length := by
  obtain ⟨ext, hx, hl⟩ := mapEnrich_fst_append op cp as h
  rw [hx]
  simp [hl]

/-- The enrichment loop never changes an existing heap cell. -/
theorem mapEnrich_getD_old (op cp : List (String × String)) (as : List Nat)
    (h : Heap) (i : Nat) (d : EventRecord) (hi : i < h.length) :
    (mapEnrich op cp h as).1.getD i d = h.getD i d := by
  obtain ⟨ext, hx, _⟩ := mapEnrich_fst_append op cp as h
  rw [hx]
  exact List.getD_append _ _ _ _ hi

/-- The addresses returned by the enrichment loop are the consecutive fresh
addresses starting at the old heap length. -/
theorem mapEnrich_snd (op cp : List (String × String)) :
    ∀ (as : List Nat) (h : Heap),
      (mapEnrich op cp h as).2 = List.range' h.length as.length := by
  intro as
  induction as with
  | nil => intro h; rfl
  | cons a as ih =>
    intro h
    simp [mapEnrich, ih, List.range'_succ]

/-- The value allocated for the k-th cached record is the enriched clone of
that record as it was in the original heap. -/
theorem mapEnrich_getD_new (op cp : List (String × String)) :
    ∀ (as : List Nat) (h : Heap), (∀ a ∈ as, a < h.length) →
      ∀ k, k < as.length →
        (mapEnrich op cp h as).1.getD (h.length + k) ({} : EventRecord) =
          enrichOne op cp (h.getD (as.getD k 0) ({} : EventRecord)) := by
  intro as
  induction as with
  | nil => intro h _ k hk; simp at hk
  | cons a as ih =>
    intro h hb k hk
    cases k with
    | zero =>
      obtain ⟨ext, hx, _⟩ := mapEnrich_fst_append op cp as
        (h ++ [enrichOne op cp (h.getD a ({} : EventRecord))])
      show (mapEnrich op cp (h ++ [enrichOne op cp (h.getD a ({} : EventRecord))]) as).1.getD
          (h.length + 0) ({} : EventRecord) = _
      rw [hx, List.append_assoc, Nat.add_zero,
        List.getD_append_right _ _ _ _ (Nat.le_refl h.length), Nat.sub_self]
      rfl
    | succ k =>
      have hb' : ∀ x ∈ as, x < (h ++ [enrichOne op cp (h.getD a ({} : EventRecord))]).length := by
        intro x hx
        have := hb x (List.mem_cons_of_mem _ hx)
        simp only [List.length_append, List.length_singleton]
        omega
      have hkl : k < as.length := by simpa using hk
      have hrec := ih (h ++ [enrichOne op cp (h.getD a ({} : EventRecord))]) hb' k hkl
      have hidx : h.length + (k + 1) =
          (h ++ [enrichOne op cp (h.getD a ({} : EventRecord))]).length + k := by
        simp only [List.length_append, List.length_singleton]
        omega
      have hbk : as.getD k 0 < h.length := by
        have hmem : as.getD k 0 ∈ as := by
          rw [List.getD_eq_getElem _ _ hkl]
          exact List.getElem_mem _
        exact hb _ (List.mem_cons_of_mem _ hmem)
      show (mapEnrich op cp (h ++ [enrichOne op cp (h.getD a ({} : EventRecord))]) as).1.getD
          (h.length + (k + 1)) ({} : EventRecord) = _
      rw [hidx, hrec, List.getD_append _ _ _ _ hbk]
      rfl

/-- The id-alias step touches only the `id` field. -/
theorem aliasId_fields (e : EventRecord) :
    (aliasId e).eventId = e.eventId ∧ (aliasId e).rowIndex = e.rowIndex ∧
    (aliasId e).eventType = e.eventType ∧ (aliasId e).createdTime = e.createdTime ∧
    (aliasId e).lastModifiedTime = e.lastModifiedTime ∧ (aliasId e).eventName = e.eventName ∧
    (aliasId e).opportunityId = e.opportunityId ∧ (aliasId e).companyId = e.companyId := by
  unfold aliasId
  split <;> exact ⟨rfl, rfl, rfl, rfl, rfl, rfl, rfl, rfl⟩

/-- The id-alias step leaves both display fields untouched. -/
theorem aliasId_display (e : EventRecord) :
    (aliasId e).opportunityName = e.opportunityName ∧
    (aliasId e).companyName = e.companyName := by
  unfold aliasId
  split <;> exact ⟨rfl, rfl⟩

/-- Attaching the opportunity display name touches only `opportunityName`. -/
theorem attachOppName_fields (op : List (String × String)) (e : EventRecord) :
    (attachOppName op e).eventId = e.eventId ∧ (attachOppName op e).rowIndex = e.rowIndex ∧
    (attachOppName op e).eventType = e.eventType ∧
    (attachOppName op e).createdTime = e.createdTime ∧
    (attachOppName op e).lastModifiedTime = e.lastModifiedTime ∧
    (attachOppName op e).eventName = e.eventName ∧
    (attachOppName op e).opportunityId = e.opportunityId ∧
    (attachOppName op e).companyId = e.companyId := by
  unfold attachOppName
  repeat' split
  all_goals exact ⟨rfl, rfl, rfl, rfl, rfl, rfl, rfl, rfl⟩

/-- Attaching the opportunity display name leaves `companyName` untouched. -/
theorem attachOppName_compName (op : List (String × String)) (e : EventRecord) :
    (attachOppName op e).companyName = e.companyName := by
  unfold attachOppName
  repeat' split
  all_goals rfl

/-- Attaching the company display name touches only `companyName`. -/
theorem attachCompName_fields (cp : List (String × String)) (e : EventRecord) :
    (attachCompName cp e).eventId = e.eventId ∧ (attachCompName cp e).rowIndex = e.rowIndex ∧
    (attachCompName cp e).eventType = e.eventType ∧
    (attachCompName cp e).createdTime = e.createdTime ∧
    (attachCompName cp e).lastModifiedTime = e.lastModifiedTime ∧
    (attachCompName cp e).eventName = e.eventName ∧
    (attachCompName cp e).opportunityId = e.opportunityId ∧
    (attachCompName cp e).companyId = e.companyId := by
  unfold attachCompName
  repeat' split
  all_goals exact ⟨rfl, rfl, rfl, rfl, rfl, rfl, rfl, rfl⟩

/-- Attaching the company display name leaves `opportunityName` untouched. -/
theorem attachCompName_oppName (cp : List (String × String)) (e : EventRecord) :
    (attachCompName cp e).opportunityName = e.opportunityName := by
  unfold attachCompName
  repeat' split
  all_goals rfl

/-- The opportunity display attachment: map value unless missed or empty. -/
theorem attachOppName_display (op : List (String × String)) (e : EventRecord) :
    (∀ oid, e.opportunityId = some oid → oid ≠ "" →
      (attachOppName op e).opportunityName = some (getOrEcho op oid)) ∧
    ((e.opportunityId = none ∨ e.opportunityId = some "") →
      (attachOppName op e).opportunityName = e.opportunityName) := by
  constructor
  · intro oid he hne
    unfold attachOppName
    rw [he]
    simp [hne]
  · rintro (he | he) <;> (unfold attachOppName; rw [he]; try simp)

/-- The company display attachment: map value unless missed or empty. -/
theorem attachCompName_display (cp : List (String × String)) (e : EventRecord) :
    (∀ cid, e.companyId = some cid → cid ≠ "" →
      (attachCompName cp e).companyName = some (getOrEcho cp cid)) ∧
    ((e.companyId = none ∨ e.companyId = some "") →
      (attachCompName cp e).companyName = e.companyName) := by
  constructor
  · intro cid he hne
    unfold attachCompName
    rw [he]
    simp [hne]
  · rintro (he | he) <;> (unfold attachCompName; rw [he]; try simp)

/-- Enrichment copies every non-display field of the record unchanged. -/
theorem enrichOne_fields (op cp : List (String × String)) (raw : EventRecord) :
    (enrichOne op cp raw).eventId = raw.eventId ∧
    (enrichOne op cp raw).rowIndex = raw.rowIndex ∧
    (enrichOne op cp raw).eventType = raw.eventType ∧
    (enrichOne op cp raw).createdTime = raw.createdTime ∧
    (enrichOne op cp raw).lastModifiedTime = raw.lastModifiedTime ∧
    (enrichOne op cp raw).eventName = raw.eventName ∧
    (enrichOne op cp raw).opportunityId = raw.opportunityId ∧
    (enrichOne op cp raw).companyId = raw.companyId := by
  have h1 := aliasId_fields raw
  have h2 := attachOppName_fields op (aliasId raw)
  have h3 := attachCompName_fields cp (attachOppName op (aliasId raw))
  exact ⟨h3.1.trans (h2.1.trans h1.1),
    h3.2.1.trans (h2.2.1.trans h1.2.1),
    h3.2.2.1.trans (h2.2.2.1.trans h1.2.2.1),
    h3.2.2.2.1.trans (h2.2.2.2.1.trans h1.2.2.2.1),
    h3.2.2.2.2.1.trans (h2.2.2.2.2.1.trans h1.2.2.2.2.1),
    h3.2.2.2.2.2.1.trans (h2.2.2.2.2.2.1.trans h1.2.2.2.2.2.1),
    h3.2.2.2.2.2.2.1.trans (h2.2.2.2.2.2.2.1.trans h1.2.2.2.2.2.2.1),
    h3.2.2.2.2.2.2.2.trans (h2.2.2.2.2.2.2.2.trans h1.2.2.2.2.2.2.2)⟩

/-- Enrichment attaches the display names exactly when the join key is truthy,
using the map value unless it misses or is empty (raw id echoed then); a falsy
join key leaves the display field as it was on the raw record. -/
theorem enrichOne_display (op cp : List (String × String)) (raw : EventRecord) :
    (∀ oid, raw.opportunityId = some oid → oid ≠ "" →
      (enrichOne op cp raw).opportunityName = some (getOrEcho op oid)) ∧
    ((raw.opportunityId = none ∨ raw.opportunityId = some "") →
      (enrichOne op cp raw).opportunityName = raw.opportunityName) ∧
    (∀ cid, raw.companyId = some cid → cid ≠ "" →
      (enrichOne op cp raw).companyName = some (getOrEcho cp cid)) ∧
    ((raw.companyId = none ∨ raw.companyId = some "") →
      (enrichOne op cp raw).companyName = raw.companyName) := by
  have haid := aliasId_fields raw
  have haod := aliasId_display raw
  have hoid : (aliasId raw).opportunityId = raw.opportunityId := haid.2.2.2.2.2.2.1
  have hcid2 : (attachOppName op (aliasId raw)).companyId = raw.companyId :=
    (attachOppName_fields op (aliasId raw)).2.2.2.2.2.2.2.trans haid.2.2.2.2.2.2.2
  refine ⟨?_, ?_, ?_, ?_⟩
  · intro oid he hne
    have := (attachOppName_display op (aliasId raw)).1 oid (hoid.trans he) hne
    exact (attachCompName_oppName cp _).trans this
  · intro he
    have hyp : (aliasId raw).opportunityId = none ∨ (aliasId raw).opportunityId = some "" := by
      rcases he with he | he
      · exact Or.inl (hoid.trans he)
      · exact Or.inr (hoid.trans he)
    have := (attachOppName_display op (aliasId raw)).2 hyp
    exact (attachCompName_oppName cp _).trans (this.trans haod.1)
  · intro cid he hne
    exact (attachCompName_display cp (attachOppName op (aliasId raw))).1 cid
      (hcid2.trans he) hne
  · intro he
    have hyp : (attachOppName op (aliasId raw)).companyId = none ∨
        (attachOppName op (aliasId raw)).companyId = some "" := by
      rcases he with he | he
      · exact Or.inl (hcid2.trans he)
      · exact Or.inr (hcid2.trans he)
    have := (attachCompName_display cp (attachOppName op (aliasId raw))).2 hyp
    exact this.trans ((attachOppName_compName op (aliasId raw)).trans haod.2)

/-- C8 amended: every record returned by the bulk read is a fresh shallow copy
of the cached record with the display-name fields attached on the copy — equal
to the matching collaborator's name when one exists with a non-empty name, and
echoing the raw id when no match exists or the matched name is empty; the
cached record objects are never mutated by enrichment (so a clean cache stays
free of display fields), the returned addresses are disjoint from the cache,
and two independent enrichment calls return pairwise distinct objects. -/
theorem c8_enrichment_clones_and_preserves_cache :
    ∀ (h : Heap) (cache : List Nat) (opps : List Opportunity) (comps : List Company),
      (∀ a ∈ cache, a < h.length) →
      (∀ a ∈ cache, (h.getD a ({} : EventRecord)).opportunityName = none ∧
        (h.getD a ({} : EventRecord)).companyName = none) →
      ((∀ a ∈ cache,
          (svcGetAllEvents h (.ok cache) (.ok opps) (.ok comps)).1.getD a ({} : EventRecord) =
            h.getD a ({} : EventRecord)) ∧
       (∀ a ∈ cache,
          ((svcGetAllEvents h (.ok cache) (.ok opps) (.ok comps)).1.getD a
              ({} : EventRecord)).opportunityName = none ∧
          ((svcGetAllEvents h (.ok cache) (.ok opps) (.ok comps)).1.getD a
              ({} : EventRecord)).companyName = none) ∧
       (∀ x ∈ (svcGetAllEvents h (.ok cache) (.ok opps) (.ok comps)).2, x ∉ cache) ∧
       (∀ x ∈ (svcGetAllEvents h (.ok cache) (.ok opps) (.ok comps)).2,
        ∀ y ∈ (svcGetAllEvents (svcGetAllEvents h (.ok cache) (.ok opps) (.ok comps)).1
            (.ok cache) (.ok opps) (.ok comps)).2, x ≠ y) ∧
       ((svcGetAllEvents h (.ok cache) (.ok opps) (.ok comps)).2 =
          List.range' h.length cache.length) ∧
       (∀ k, k < cache.length →
          (svcGetAllEvents h (.ok cache) (.ok opps) (.ok comps)).1.getD (h.length + k)
              ({} : EventRecord) =
            enrichOne (opps.map fun o => (o.opportunityId, o.opportunityName))
              (comps.map fun c => (c.companyId, c.companyName))
              (h.getD (cache.getD k 0) ({} : EventRecord))) ∧
       (∀ raw : EventRecord,
          (enrichOne (opps.map fun o => (o.opportunityId, o.opportunityName))
              (comps.map fun c => (c.companyId, c.companyName)) raw).eventId = raw.eventId ∧
          (enrichOne (opps.map fun o => (o.opportunityId, o.opportunityName))
              (comps.map fun c => (c.companyId, c.companyName)) raw).rowIndex = raw.rowIndex ∧
          (enrichOne (opps.map fun o => (o.opportunityId, o.opportunityName))
              (comps.map fun c => (c.companyId, c.companyName)) raw).eventType = raw.eventType ∧
          (enrichOne (opps.map fun o => (o.opportunityId, o.opportunityName))
              (comps.map fun c => (c.companyId, c.companyName)) raw).createdTime = raw.createdTime ∧
          (enrichOne (opps.map fun o => (o.opportunityId, o.opportunityName))
              (comps.map fun c => (c.companyId, c.companyName)) raw).lastModifiedTime =
            raw.lastModifiedTime ∧
          (enrichOne (opps.map fun o => (o.opportunityId, o.opportunityName))
              (comps.map fun c => (c.companyId, c.companyName)) raw).eventName = raw.eventName ∧
          (enrichOne (opps.map fun o => (o.opportunityId, o.opportunityName))
              (comps.map fun c => (c.companyId, c.companyName)) raw).opportunityId =
            raw.opportunityId ∧
          (enrichOne (opps.map fun o => (o.opportunityId, o.opportunityName))
              (comps.map fun c => (c.companyId, c.companyName)) raw).companyId = raw.companyId) ∧
       (∀ raw : EventRecord,
          (∀ oid, raw.opportunityId = some oid → oid ≠ "" →
            (enrichOne (opps.map fun o => (o.opportunityId, o.opportunityName))
                (comps.map fun c => (c.companyId, c.companyName)) raw).opportunityName =
              some (getOrEcho (opps.map fun o => (o.opportunityId, o.opportunityName)) oid)) ∧
          ((raw.opportunityId = none ∨ raw.opportunityId = some "") →
            (enrichOne (opps.map fun o => (o.opportunityId, o.opportunityName))
                (comps.map fun c => (c.companyId, c.companyName)) raw).opportunityName =
              raw.opportunityName) ∧
          (∀ cid, raw.companyId = some cid → cid ≠ "" →
            (enrichOne (opps.map fun o => (o.opportunityId, o.opportunityName))
                (comps.map fun c => (c.companyId, c.companyName)) raw).companyName =
              some (getOrEcho (comps.map fun c => (c.companyId, c.companyName)) cid)) ∧
          ((raw.companyId = none ∨ raw.companyId = some "") →
            (enrichOne (opps.map fun o => (o.opportunityId, o.opportunityName))
                (comps.map fun c => (c.companyId, c.companyName)) raw).companyName =
              raw.companyName))) := by
  intro h cache opps comps hb hclean
  have hsvc : svcGetAllEvents h (.ok cache) (.ok opps) (.ok comps) =
      mapEnrich (opps.map fun o => (o.opportunityId, o.opportunityName))
        (comps.map fun c => (c.companyId, c.companyName)) h cache := rfl
  refine ⟨?_, ?_, ?_, ?_, ?_, ?_, ?_, ?_⟩
  · intro a ha
    rw [hsvc]
    exact mapEnrich_getD_old _ _ _ _ _ _ (hb a ha)
  · intro a ha
    constructor
    · rw [hsvc, mapEnrich_getD_old _ _ _ _ _ _ (hb a ha)]
      exact (hclean a ha).1
    · rw [hsvc, mapEnrich_getD_old _ _ _ _ _ _ (hb a ha)]
      exact (hclean a ha).2
  · intro x hx hxc
    rw [hsvc, mapEnrich_snd] at hx
    rw [List.mem_range'] at hx
    obtain ⟨i, hi, rfl⟩ := hx
    have := hb _ hxc
    omega
  · intro x hx y hy
    rw [hsvc, mapEnrich_snd] at hx
    rw [List.mem_range'] at hx
    have hsvc2 : svcGetAllEvents
        (mapEnrich (opps.map fun o => (o.opportunityId, o.opportunityName))
          (comps.map fun c => (c.companyId, c.companyName)) h cache).1
        (.ok cache) (.ok opps) (.ok comps) =
      mapEnrich (opps.map fun o => (o.opportunityId, o.opportunityName))
        (comps.map fun c => (c.companyId, c.companyName))
        (mapEnrich (opps.map fun o => (o.opportunityId, o.opportunityName))
          (comps.map fun c => (c.companyId, c.companyName)) h cache).1 cache := rfl
    rw [hsvc, hsvc2, mapEnrich_snd, mapEnrich_length] at hy
    rw [List.mem_range'] at hy
    obtain ⟨i, hi, rfl⟩ := hx
    obtain ⟨j, hj, rfl⟩ := hy
    omega
  · rw [hsvc]
    exact mapEnrich_snd _ _ _ _
  · intro k hk
    rw [hsvc]
    exact mapEnrich_getD_new _ _ _ _ hb k hk
  · intro raw
    exact enrichOne_fields _ _ raw
  · intro raw
    exact enrichOne_display _ _ raw

/-- Witness for C8 at concrete inputs: the one-record heap `h8` with a clean
cache at address 0. -/
theorem c8_enrichment_clones_and_preserves_cache_witness :
    (∀ a ∈ [0], a < h8.length) ∧
    (∀ a ∈ [0], (h8.getD a ({} : EventRecord)).opportunityName = none ∧
      (h8.getD a ({} : EventRecord)).companyName = none) ∧
    ((∀ a ∈ [0],
        (svcGetAllEvents h8 (.ok [0]) (.ok oppsW) (.ok compsW)).1.getD a ({} : EventRecord) =
          h8.getD a ({} : EventRecord)) ∧
     (∀ a ∈ [0],
        ((svcGetAllEvents h8 (.ok [0]) (.ok oppsW) (.ok compsW)).1.getD a
            ({} : EventRecord)).opportunityName = none ∧
        ((svcGetAllEvents h8 (.ok [0]) (.ok oppsW) (.ok compsW)).1.getD a
            ({} : EventRecord)).companyName = none) ∧
     (∀ x ∈ (svcGetAllEvents h8 (.ok [0]) (.ok oppsW) (.ok compsW)).2, x ∉ [0]) ∧
     (∀ x ∈ (svcGetAllEvents h8 (.ok [0]) (.ok oppsW) (.ok compsW)).2,
      ∀ y ∈ (svcGetAllEvents (svcGetAllEvents h8 (.ok [0]) (.ok oppsW) (.ok compsW)).1
          (.ok [0]) (.ok oppsW) (.ok compsW)).2, x ≠ y) ∧
     ((svcGetAllEvents h8 (.ok [0]) (.ok oppsW) (.ok compsW)).2 =
        List.range' h8.length (List.length [0])) ∧
     (∀ k, k < List.length ([0] : List Nat) →
        (svcGetAllEvents h8 (.ok [0]) (.ok oppsW) (.ok compsW)).1.getD (h8.length + k)
            ({} : EventRecord) =
          enrichOne (oppsW.map fun o => (o.opportunityId, o.opportunityName))
            (compsW.map fun c => (c.companyId, c.companyName))
            (h8.getD (List.getD [0] k 0) ({} : EventRecord))) ∧
     (∀ raw : EventRecord,
        (enrichOne (oppsW.map fun o => (o.opportunityId, o.opportunityName))
            (compsW.map fun c => (c.companyId, c.companyName)) raw).eventId = raw.eventId ∧
        (enrichOne (oppsW.map fun o => (o.opportunityId, o.opportunityName))
            (compsW.map fun c => (c.companyId, c.companyName)) raw).rowIndex = raw.rowIndex ∧
        (enrichOne (oppsW.map fun o => (o.opportunityId, o.opportunityName))
            (compsW.map fun c => (c.companyId, c.companyName)) raw).eventType = raw.eventType ∧
        (enrichOne (oppsW.map fun o => (o.opportunityId, o.opportunityName))
            (compsW.map fun c => (c.companyId, c.companyName)) raw).createdTime = raw.createdTime ∧
        (enrichOne (oppsW.map fun o => (o.opportunityId, o.opportunityName))
            (compsW.map fun c => (c.companyId, c.companyName)) raw).lastModifiedTime =
          raw.lastModifiedTime ∧
        (enrichOne (oppsW.map fun o => (o.opportunityId, o.opportunityName))
            (compsW.map fun c => (c.companyId, c.companyName)) raw).eventName = raw.eventName ∧
        (enrichOne (oppsW.map fun o => (o.opportunityId, o.opportunityName))
            (compsW.map fun c => (c.companyId, c.companyName)) raw).opportunityId =
          raw.opportunityId ∧
        (enrichOne (oppsW.map fun o => (o.opportunityId, o.opportunityName))
            (compsW.map fun c => (c.companyId, c.companyName)) raw).companyId = raw.companyId) ∧
     (∀ raw : EventRecord,
        (∀ oid, raw.opportunityId = some oid → oid ≠ "" →
          (enrichOne (oppsW.map fun o => (o.opportunityId, o.opportunityName))
              (compsW.map fun c => (c.companyId, c.companyName)) raw).opportunityName =
            some (getOrEcho (oppsW.map fun o => (o.opportunityId, o.opportunityName)) oid)) ∧
        ((raw.opportunityId = none ∨ raw.opportunityId = some "") →
          (enrichOne (oppsW.map fun o => (o.opportunityId, o.opportunityName))
              (compsW.map fun c => (c.companyId, c.companyName)) raw).opportunityName =
            raw.opportunityName) ∧
        (∀ cid, raw.companyId = some cid → cid ≠ "" →
          (enrichOne (oppsW.map fun o => (o.opportunityId, o.opportunityName))
              (compsW.map fun c => (c.companyId, c.companyName)) raw).companyName =
            some (getOrEcho (compsW.map fun c => (c.companyId, c.companyName)) cid)) ∧
        ((raw.companyId = none ∨ raw.companyId = some "") →
          (enrichOne (oppsW.map fun o => (o.opportunityId, o.opportunityName))
              (compsW.map fun c => (c.companyId, c.companyName)) raw).companyName =
            raw.companyName))) :=
  ⟨by decide, by decide,
    c8_enrichment_clones_and_preserves_cache h8 [0] oppsW compsW (by decide) (by decide)⟩
